import Mathlib

/-!
Verification development for the securevault-offline repository.

The cryptographic vault engine (KeyDerivation, CipherService, KeyManager,
VaultService) is specified in spec.md and sketched in src/ARCHITECTURE.md;
its implementation files are not part of src/, so those components are
modelled from the spec below (each such definition says so in its doc
comment). The PWA service worker (src/client/public/sw.js) and the
SubscriptionAnalytics component (src/unnamed/part_000) are embedded
directly from their source.
-/

namespace SecureVault

/-- Byte strings are modelled as lists of naturals. -/
abbrev Bytes := List Nat

/-- Error kinds of the vault engine, from spec section 7. -/
inductive VaultError where
  | invalidCredentials
  | vaultLocked
  | authenticationFailed
  | notFound
  | invalidParams
  | rekeyAborted
  | importAuthenticationFailed
  | storageFailure
deriving DecidableEq, Repr

/-- KDF parameters: iterations, optional memory cost, algorithm name
(spec section 3, VaultMetadata.kdfParams). -/
structure KdfParams where
  iterations : Nat
  memoryCost : Option Nat
  algorithm : String
deriving DecidableEq, Repr

/-- Modelled from the spec: MasterSecret, the 256-bit symmetric key produced
by KeyDerivation. The KDF implementation is not in src/ (ARCHITECTURE.md
only sketches a PBKDF2 call), so the key is modelled ideally as the record
of its derivation inputs: derivation is deterministic and distinct inputs
yield distinct keys, which is the computational assumption made exact. -/
structure MasterSecret where
  password : String
  salt : Bytes
  params : KdfParams
deriving DecidableEq, Repr

/-- Modelled from the spec: the safety floor on the KDF iteration count.
The repository default iteration count is 100000 (ARCHITECTURE.md deriveKey
and the ENCRYPTION_ITERATIONS environment default), taken here as the floor. -/
def iterationSafetyFloor : Nat := 100000

/-- Modelled from the spec: KeyDerivation.derive. Deterministic; fails with
InvalidParams if the iteration count is below the safety floor, otherwise
yields the derived key. -/
def derive (password : String) (salt : Bytes) (params : KdfParams) :
    Except VaultError MasterSecret :=
  if params.iterations < iterationSafetyFloor then .error .invalidParams
  else .ok ⟨password, salt, params⟩

/-- Modelled from the spec: the authentication tag of an AEAD envelope. The
ideal MAC is modelled as the formal triple it authenticates, so a tag check
succeeds iff key, nonce and ciphertext all match — the collision-resistance
assumption on the real AES-GCM tag made exact. -/
structure AuthTag where
  key : MasterSecret
  nonce : Bytes
  ciphertext : Bytes
deriving DecidableEq, Repr

/-- The self-describing ciphertext envelope (spec section 3). -/
structure Envelope where
  algorithm : String
  nonce : Bytes
  ciphertext : Bytes
  authTag : AuthTag
deriving DecidableEq, Repr

/-- The ideal MAC over key, nonce and ciphertext. -/
def mac (key : MasterSecret) (nonce : Bytes) (ciphertext : Bytes) : AuthTag :=
  ⟨key, nonce, ciphertext⟩

/-- Modelled from the spec: CipherService.encrypt. The fresh random nonce is
made an explicit argument. Confidentiality of AES-GCM is not modelled (the
ciphertext field carries the payload bytes); the authenticated-encryption
interface — tag binding of key, nonce and ciphertext — is modelled exactly,
which is what the round-trip and rejection claims are about. -/
def encrypt (plaintext : Bytes) (key : MasterSecret) (nonce : Bytes) : Envelope :=
  { algorithm := "AES-GCM"
    nonce := nonce
    ciphertext := plaintext
    authTag := mac key nonce plaintext }

/-- Modelled from the spec: CipherService.decrypt. Fails with
AuthenticationFailed if the integrity tag does not verify (wrong key or
tampered data); only on a successful tag check is the payload returned. -/
def decrypt (env : Envelope) (key : MasterSecret) : Except VaultError Bytes :=
  if env.authTag = mac key env.nonce env.ciphertext then .ok env.ciphertext
  else .error .authenticationFailed

/-- The known constant encrypted into VaultMetadata.keyCheckEnvelope
(spec section 3). -/
def keyCheckConstant : Bytes := [118, 97, 117, 108, 116]

/-- The non-secret bootstrap record of a vault (spec section 3). -/
structure VaultMetadata where
  formatVersion : Nat
  salt : Bytes
  kdfParams : KdfParams
  keyCheckEnvelope : Envelope
deriving DecidableEq, Repr

/-- A persisted record: id, category, encrypted envelope, timestamp
(spec section 3). -/
structure VaultRecord where
  id : String
  category : String
  envelope : Envelope
  lastModified : Nat
deriving DecidableEq, Repr

/-- The persistent vault state: metadata plus the record store contents. -/
structure Vault where
  metadata : VaultMetadata
  records : List VaultRecord
deriving DecidableEq, Repr

/-- The portable export format (spec section 3, VaultBundle). -/
structure VaultBundle where
  metadata : VaultMetadata
  records : List VaultRecord
deriving DecidableEq, Repr

/-- Modelled from the spec: key verification against the keyCheckEnvelope —
the candidate key is accepted iff the envelope decrypts to the known
constant. -/
def verifyKey (meta : VaultMetadata) (key : MasterSecret) : Bool :=
  match decrypt meta.keyCheckEnvelope key with
  | .ok pt => pt = keyCheckConstant
  | .error _ => false

/-- Modelled from the spec: the decrypt-all-then-encrypt-all staging loop of
rekey. Walks the records in order keeping a running index; each record is
decrypted under the old key and re-encrypted under the new key with a fresh
nonce (nonceAt makes the randomness explicit). failAt injects a forced
re-encryption failure at the given index, as in the rekey-atomicity test of
spec section 8. Any failure aborts the whole loop with RekeyAborted. -/
def reencryptLoop (oldKey newKey : MasterSecret) (nonceAt : Nat → Bytes)
    (failAt : Option Nat) :
    List VaultRecord → Nat → Except VaultError (List VaultRecord)
  | [], _ => .ok []
  | r :: rs, i =>
    match decrypt r.envelope oldKey with
    | .error _ => .error .rekeyAborted
    | .ok pt =>
      if failAt = some i then .error .rekeyAborted
      else
        match reencryptLoop oldKey newKey nonceAt failAt rs (i + 1) with
        | .error e => .error e
        | .ok rest => .ok ({ r with envelope := encrypt pt newKey (nonceAt i) } :: rest)

/-- Modelled from the spec: KeyManager.rekey. Generates a new salt (passed
explicitly), derives the new key, re-encrypts every record through the
staging loop, and only when every record is successfully staged writes the
new VaultMetadata (new salt, params and keyCheckEnvelope) together with the
staged records; on any failure the old vault value is returned unchanged
with the error. -/
def rekey (v : Vault) (oldKey : MasterSecret) (newPassword : String)
    (newSalt : Bytes) (newParams : KdfParams) (nonceAt : Nat → Bytes)
    (checkNonce : Bytes) (failAt : Option Nat) :
    Vault × Except VaultError Unit :=
  match derive newPassword newSalt newParams with
  | .error e => (v, .error e)
  | .ok newKey =>
    match reencryptLoop oldKey newKey nonceAt failAt v.records 0 with
    | .error e => (v, .error e)
    | .ok staged =>
      ({ metadata :=
          { formatVersion := v.metadata.formatVersion
            salt := newSalt
            kdfParams := newParams
            keyCheckEnvelope := encrypt keyCheckConstant newKey checkNonce }
         records := staged }, .ok ())

/-- Modelled from the spec: VaultService.importBundle. Derives a key from
the supplied password using the salt and params of the bundle metadata and
verifies it against the keyCheckEnvelope of the bundle; only on success is
local state replaced by the bundle contents, otherwise the local vault is
returned untouched with ImportAuthenticationFailed. -/
def importBundle (localVault : Vault) (bundle : VaultBundle)
    (password : String) : Vault × Except VaultError Unit :=
  match derive password bundle.metadata.salt bundle.metadata.kdfParams with
  | .error _ => (localVault, .error .importAuthenticationFailed)
  | .ok candidate =>
    if verifyKey bundle.metadata candidate then
      ({ metadata := bundle.metadata, records := bundle.records }, .ok ())
    else
      (localVault, .error .importAuthenticationFailed)

/-- An envelope that decrypts under one key fails authentication under any
other key: the tag binds the key. -/
theorem decrypt_ok_other_key_fails (env : Envelope) (k1 k2 : MasterSecret)
    (pt : Bytes) (hok : decrypt env k1 = .ok pt) (hne : k1 ≠ k2) :
    decrypt env k2 = .error .authenticationFailed := by
  unfold decrypt at hok ⊢
  split at hok
  · next htag =>
      rw [if_neg]
      intro hc
      rw [htag] at hc
      exact hne (congrArg AuthTag.key hc)
  · exact absurd hok (by simp)

/-- The staging loop aborts with RekeyAborted whenever the injected failure
index is in range, provided every record decrypts under the old key. -/
theorem reencryptLoop_abort (oldKey newKey : MasterSecret)
    (nonceAt : Nat → Bytes) (j : Nat) :
    ∀ (l : List VaultRecord) (n : Nat),
      (∀ r ∈ l, ∃ pt, decrypt r.envelope oldKey = .ok pt) →
      n ≤ j → j < n + l.length →
      reencryptLoop oldKey newKey nonceAt (some j) l n = .error .rekeyAborted := by
  intro l
  induction l with
  | nil =>
      intro n _ hle hlt
      simp at hlt
      omega
  | cons r rs ih =>
      intro n hdec hle hlt
      obtain ⟨pt, hpt⟩ := hdec r (List.mem_cons_self r rs)
      unfold reencryptLoop
      rw [hpt]
      by_cases hj : j = n
      · simp [hj]
      · have hrec : reencryptLoop oldKey newKey nonceAt (some j) rs (n + 1) =
            .error .rekeyAborted := by
          apply ih (n + 1) (fun r' hr' => hdec r' (List.mem_cons_of_mem r hr'))
          · omega
          · simp at hlt
            omega
        simp only [hrec]
        have : (some j = some n) = False := by
          simp [hj]
        simp [this]

/-- With no injected failure, the staging loop succeeds and every staged
record decrypts under the new key. -/
theorem reencryptLoop_success (oldKey newKey : MasterSecret)
    (nonceAt : Nat → Bytes) :
    ∀ (l : List VaultRecord) (n : Nat),
      (∀ r ∈ l, ∃ pt, decrypt r.envelope oldKey = .ok pt) →
      ∃ staged, reencryptLoop oldKey newKey nonceAt none l n = .ok staged ∧
        ∀ r ∈ staged, ∃ pt, decrypt r.envelope newKey = .ok pt := by
  intro l
  induction l with
  | nil =>
      intro n _
      exact ⟨[], rfl, by simp⟩
  | cons r rs ih =>
      intro n hdec
      obtain ⟨pt, hpt⟩ := hdec r (List.mem_cons_self r rs)
      obtain ⟨staged, hstaged, hall⟩ :=
        ih (n + 1) (fun r' hr' => hdec r' (List.mem_cons_of_mem r hr'))
      refine ⟨{ r with envelope := encrypt pt newKey (nonceAt n) } :: staged, ?_, ?_⟩
      · unfold reencryptLoop
        rw [hpt, hstaged]
        simp
      · intro r' hr'
        rcases List.mem_cons.mp hr' with h | h
        · subst h
          exact ⟨pt, by simp [decrypt, encrypt, mac]⟩
        · exact hall r' h

/-- KeyManager states relevant to the lock and unlock claims
(spec section 4.4). -/
inductive KMState where
  | locked
  | unlocked
deriving DecidableEq, Repr

/-- Events emitted by the KeyManager state machine (spec section 4.4). -/
inductive KMEvent where
  | unlockedEvent
  | lockedEvent
deriving DecidableEq, Repr

/-- Modelled from the spec and the KeyManager sketch in ARCHITECTURE.md:
the in-memory state of the KeyManager — lifecycle state, the optional
master key, the optional armed auto-lock timer (its deadline), the time of
the last user activity, and the configured inactivity window in
milliseconds. -/
structure KeyManager where
  state : KMState
  masterKey : Option MasterSecret
  autoLockTimer : Option Nat
  lastActivity : Nat
  autoLockTimeoutMs : Nat
deriving DecidableEq, Repr

/-- The default auto-lock inactivity window: 15 minutes, as in
KeyManager.setAutoLockTimer of ARCHITECTURE.md. -/
def defaultAutoLockTimeoutMs : Nat := 15 * 60 * 1000

/-- Modelled from the spec and KeyManager.lock of ARCHITECTURE.md:
synchronously discard the in-memory key, cancel the auto-lock timer,
transition to Locked, and emit the Locked event. -/
def lock (km : KeyManager) : KeyManager × List KMEvent :=
  ({ km with state := .locked, masterKey := none, autoLockTimer := none },
   [.lockedEvent])

/-- Modelled from the spec and KeyManager.unlock of ARCHITECTURE.md: derive
a candidate key from the stored salt and params, verify it against the
keyCheckEnvelope; on success store the key, arm the auto-lock timer and
emit the Unlocked event; on failure run the lock cleanup (discarding the
candidate) and signal InvalidCredentials. -/
def unlock (km : KeyManager) (meta : VaultMetadata) (password : String)
    (now : Nat) : KeyManager × List KMEvent × Except VaultError Unit :=
  match derive password meta.salt meta.kdfParams with
  | .error _ => ((lock km).1, [], .error .invalidCredentials)
  | .ok candidate =>
    if verifyKey meta candidate then
      ({ km with
          state := .unlocked
          masterKey := some candidate
          autoLockTimer := some (now + km.autoLockTimeoutMs)
          lastActivity := now }, [.unlockedEvent], .ok ())
    else
      ((lock km).1, [], .error .invalidCredentials)

/-- Modelled from the spec: the auto-lock timer firing check. When the
vault is Unlocked and at least the configured inactivity window has passed
since the last activity, it performs the same cleanup as an explicit lock;
otherwise nothing changes. -/
def checkAutoLock (km : KeyManager) (now : Nat) : KeyManager × List KMEvent :=
  if km.state = .unlocked ∧ km.lastActivity + km.autoLockTimeoutMs ≤ now then
    lock km
  else (km, [])

/-- Modelled from the spec: a vault read or write operation at a given
time. The auto-lock check runs first; if the vault is still Unlocked the
operation succeeds and resets the inactivity timer, otherwise it fails
with VaultLocked. -/
def vaultOperation (km : KeyManager) (now : Nat) :
    KeyManager × Except VaultError Unit :=
  let km1 := (checkAutoLock km now).1
  if km1.state = .unlocked then
    ({ km1 with lastActivity := now }, .ok ())
  else (km1, .error .vaultLocked)

end SecureVault

/-- C2: rekey is all-or-nothing. With a forced re-encryption failure at any
in-range record index, rekey returns the vault unchanged with RekeyAborted,
every record still decrypts under the old key, and no record decrypts under
the new key; without a failure, rekey succeeds, and only then are the new
VaultMetadata (with the new keyCheckEnvelope) and the staged records —
every one decryptable under the new key — written. -/
theorem SecureVault.rekey_all_or_nothing
    (v : SecureVault.Vault) (oldPw newPw : String)
    (oldKey : SecureVault.MasterSecret) (newSalt : SecureVault.Bytes)
    (newParams : SecureVault.KdfParams) (nonceAt : Nat → SecureVault.Bytes)
    (checkNonce : SecureVault.Bytes) (i : Nat)
    (hold : SecureVault.derive oldPw v.metadata.salt v.metadata.kdfParams =
      .ok oldKey)
    (hparams : SecureVault.iterationSafetyFloor ≤ newParams.iterations)
    (hsalt : newSalt ≠ v.metadata.salt)
    (hdec : ∀ r ∈ v.records, ∃ pt, SecureVault.decrypt r.envelope oldKey = .ok pt)
    (hi : i < v.records.length) :
    SecureVault.rekey v oldKey newPw newSalt newParams nonceAt checkNonce
      (some i) = (v, .error .rekeyAborted) ∧
    (∀ r ∈ v.records, ∃ pt, SecureVault.decrypt r.envelope oldKey = .ok pt) ∧
    (∀ newKey, SecureVault.derive newPw newSalt newParams = .ok newKey →
      ∀ r ∈ v.records,
        SecureVault.decrypt r.envelope newKey = .error .authenticationFailed) ∧
    (∀ newKey, SecureVault.derive newPw newSalt newParams = .ok newKey →
      (SecureVault.rekey v oldKey newPw newSalt newParams nonceAt checkNonce
        none).2 = .ok () ∧
      (SecureVault.rekey v oldKey newPw newSalt newParams nonceAt checkNonce
        none).1.metadata.keyCheckEnvelope =
        SecureVault.encrypt SecureVault.keyCheckConstant newKey checkNonce ∧
      ∀ r ∈ (SecureVault.rekey v oldKey newPw newSalt newParams nonceAt
        checkNonce none).1.records,
        ∃ pt, SecureVault.decrypt r.envelope newKey = .ok pt) := by
  have hOldKey : oldKey = ⟨oldPw, v.metadata.salt, v.metadata.kdfParams⟩ := by
    unfold SecureVault.derive at hold
    split at hold
    · exact absurd hold (by simp)
    · cases hold; rfl
  have hNewNe : ∀ newKey : SecureVault.MasterSecret,
      SecureVault.derive newPw newSalt newParams = .ok newKey →
      oldKey ≠ newKey := by
    intro newKey hnk
    unfold SecureVault.derive at hnk
    split at hnk
    · exact absurd hnk (by simp)
    · cases hnk
      rw [hOldKey]
      intro hc
      exact hsalt (congrArg SecureVault.MasterSecret.salt hc).symm
  have hdrv : SecureVault.derive newPw newSalt newParams =
      .ok ⟨newPw, newSalt, newParams⟩ := by
    simp [SecureVault.derive, Nat.not_lt.mpr hparams]
  refine ⟨?_, hdec, ?_, ?_⟩
  · have habort := SecureVault.reencryptLoop_abort oldKey
      ⟨newPw, newSalt, newParams⟩ nonceAt i v.records 0 hdec (Nat.zero_le i)
      (by omega)
    unfold SecureVault.rekey
    simp only [hdrv]
    rw [habort]
  · intro newKey hnk r hr
    obtain ⟨pt, hpt⟩ := hdec r hr
    exact SecureVault.decrypt_ok_other_key_fails r.envelope oldKey newKey pt hpt
      (hNewNe newKey hnk)
  · intro newKey hnk
    obtain ⟨staged, hstaged, hall⟩ :=
      SecureVault.reencryptLoop_success oldKey newKey nonceAt v.records 0 hdec
    unfold SecureVault.rekey
    simp only [hnk]
    rw [hstaged]
    exact ⟨rfl, rfl, hall⟩

/-- Witness for C2: a one-record vault with a forced failure at index 0 is
returned unchanged with RekeyAborted. -/
theorem SecureVault.rekey_all_or_nothing_witness :
    SecureVault.rekey
      ⟨⟨1, [0], ⟨100000, none, "PBKDF2"⟩,
        SecureVault.encrypt SecureVault.keyCheckConstant
          ⟨"old", [0], ⟨100000, none, "PBKDF2"⟩⟩ [2]⟩,
       [⟨"p1", "Password",
         SecureVault.encrypt [42] ⟨"old", [0], ⟨100000, none, "PBKDF2"⟩⟩ [1], 0⟩]⟩
      ⟨"old", [0], ⟨100000, none, "PBKDF2"⟩⟩ "new" [9]
      ⟨100000, none, "PBKDF2"⟩ (fun _ => [3]) [2] (some 0) =
      (⟨⟨1, [0], ⟨100000, none, "PBKDF2"⟩,
        SecureVault.encrypt SecureVault.keyCheckConstant
          ⟨"old", [0], ⟨100000, none, "PBKDF2"⟩⟩ [2]⟩,
       [⟨"p1", "Password",
         SecureVault.encrypt [42] ⟨"old", [0], ⟨100000, none, "PBKDF2"⟩⟩ [1], 0⟩]⟩,
       .error .rekeyAborted) :=
  (SecureVault.rekey_all_or_nothing _ "old" "new"
    ⟨"old", [0], ⟨100000, none, "PBKDF2"⟩⟩ [9] ⟨100000, none, "PBKDF2"⟩
    (fun _ => [3]) [2] 0
    (by simp [SecureVault.derive, SecureVault.iterationSafetyFloor])
    (by simp [SecureVault.iterationSafetyFloor])
    (by simp)
    (by
      intro r hr
      simp only [List.mem_singleton] at hr
      subst hr
      exact ⟨[42], by simp [SecureVault.decrypt, SecureVault.encrypt,
        SecureVault.mac]⟩)
    (by simp)).1

/-- C4: importBundle verifies the keyCheckEnvelope of the bundle against the
supplied password before replacing local state; with the wrong password it
fails with ImportAuthenticationFailed, the local vault is returned
unchanged, and every pre-existing record still decrypts under the original
key. -/
theorem SecureVault.importBundle_wrong_password_isolated
    (localVault : SecureVault.Vault) (bundle : SecureVault.VaultBundle)
    (W1 W2 : String) (kb origKey : SecureVault.MasterSecret)
    (cn : SecureVault.Bytes)
    (hkb : bundle.metadata.keyCheckEnvelope =
      SecureVault.encrypt SecureVault.keyCheckConstant kb cn)
    (hW1 : SecureVault.derive W1 bundle.metadata.salt bundle.metadata.kdfParams =
      .ok kb)
    (hW : W1 ≠ W2)
    (horig : ∀ r ∈ localVault.records, ∃ pt,
      SecureVault.decrypt r.envelope origKey = .ok pt) :
    SecureVault.importBundle localVault bundle W2 =
      (localVault, .error .importAuthenticationFailed) ∧
    ∀ r ∈ (SecureVault.importBundle localVault bundle W2).1.records,
      ∃ pt, SecureVault.decrypt r.envelope origKey = .ok pt := by
  have hkbval : kb = ⟨W1, bundle.metadata.salt, bundle.metadata.kdfParams⟩ := by
    unfold SecureVault.derive at hW1
    split at hW1
    · exact absurd hW1 (by simp)
    · cases hW1; rfl
  have hmain : SecureVault.importBundle localVault bundle W2 =
      (localVault, .error .importAuthenticationFailed) := by
    unfold SecureVault.importBundle
    cases hdrv : SecureVault.derive W2 bundle.metadata.salt
        bundle.metadata.kdfParams with
    | error e => rfl
    | ok candidate =>
        have hcand : candidate =
            ⟨W2, bundle.metadata.salt, bundle.metadata.kdfParams⟩ := by
          unfold SecureVault.derive at hdrv
          split at hdrv
          · exact absurd hdrv (by simp)
          · cases hdrv; rfl
        have hne : kb ≠ candidate := by
          rw [hkbval, hcand]
          intro hc
          exact hW (congrArg SecureVault.MasterSecret.password hc)
        have hfail : SecureVault.decrypt bundle.metadata.keyCheckEnvelope
            candidate = .error .authenticationFailed := by
          apply SecureVault.decrypt_ok_other_key_fails _ kb candidate
            SecureVault.keyCheckConstant _ hne
          rw [hkb]
          simp [SecureVault.decrypt, SecureVault.encrypt, SecureVault.mac]
        have hver : SecureVault.verifyKey bundle.metadata candidate = false := by
          unfold SecureVault.verifyKey
          rw [hfail]
        simp [hver]
  refine ⟨hmain, ?_⟩
  rw [hmain]
  exact horig

/-- Witness for C4: importing a concrete bundle with the wrong password
leaves a concrete one-record local vault unchanged. -/
theorem SecureVault.importBundle_wrong_password_isolated_witness :
    SecureVault.importBundle
      ⟨⟨1, [5], ⟨100000, none, "PBKDF2"⟩,
        SecureVault.encrypt SecureVault.keyCheckConstant
          ⟨"orig", [5], ⟨100000, none, "PBKDF2"⟩⟩ [6]⟩,
       [⟨"p1", "Password",
         SecureVault.encrypt [11] ⟨"orig", [5], ⟨100000, none, "PBKDF2"⟩⟩ [7], 0⟩]⟩
      ⟨⟨1, [3], ⟨100000, none, "PBKDF2"⟩,
        SecureVault.encrypt SecureVault.keyCheckConstant
          ⟨"W1", [3], ⟨100000, none, "PBKDF2"⟩⟩ [8]⟩, []⟩
      "wrong" =
      (⟨⟨1, [5], ⟨100000, none, "PBKDF2"⟩,
        SecureVault.encrypt SecureVault.keyCheckConstant
          ⟨"orig", [5], ⟨100000, none, "PBKDF2"⟩⟩ [6]⟩,
       [⟨"p1", "Password",
         SecureVault.encrypt [11] ⟨"orig", [5], ⟨100000, none, "PBKDF2"⟩⟩ [7], 0⟩]⟩,
       .error .importAuthenticationFailed) :=
  (SecureVault.importBundle_wrong_password_isolated _ _ "W1" "wrong"
    ⟨"W1", [3], ⟨100000, none, "PBKDF2"⟩⟩
    ⟨"orig", [5], ⟨100000, none, "PBKDF2"⟩⟩ [8]
    rfl
    (by simp [SecureVault.derive, SecureVault.iterationSafetyFloor])
    (by decide)
    (by
      intro r hr
      simp only [List.mem_singleton] at hr
      subst hr
      exact ⟨[11], by simp [SecureVault.decrypt, SecureVault.encrypt,
        SecureVault.mac]⟩)).1

/-- C1: decrypting with CipherService.decrypt the envelope produced by
CipherService.encrypt under the key derived by KeyDerivation.derive from a
password, salt and KDF params returns exactly the original plaintext. -/
theorem SecureVault.encrypt_decrypt_roundtrip
    (P : SecureVault.Bytes) (W : String) (salt : SecureVault.Bytes)
    (params : SecureVault.KdfParams) (nonce : SecureVault.Bytes)
    (k : SecureVault.MasterSecret)
    (h : SecureVault.derive W salt params = .ok k) :
    SecureVault.decrypt (SecureVault.encrypt P k nonce) k = .ok P := by
  simp [SecureVault.decrypt, SecureVault.encrypt, SecureVault.mac]

/-- Witness for C1 at a concrete plaintext, password, salt and params. -/
theorem SecureVault.encrypt_decrypt_roundtrip_witness :
    SecureVault.decrypt
      (SecureVault.encrypt [1, 2, 3]
        ⟨"Tr0ub4dor&3", [0, 1], ⟨100000, none, "PBKDF2"⟩⟩ [9, 9])
      ⟨"Tr0ub4dor&3", [0, 1], ⟨100000, none, "PBKDF2"⟩⟩ = .ok [1, 2, 3] :=
  SecureVault.encrypt_decrypt_roundtrip [1, 2, 3] "Tr0ub4dor&3" [0, 1]
    ⟨100000, none, "PBKDF2"⟩ [9, 9] ⟨"Tr0ub4dor&3", [0, 1], ⟨100000, none, "PBKDF2"⟩⟩
    (by simp [SecureVault.derive, SecureVault.iterationSafetyFloor])

/-- C3: for two distinct passwords over the same salt and params, decrypting
an envelope produced under the first derived key using the second derived
key always fails with AuthenticationFailed and never returns plaintext. -/
theorem SecureVault.wrong_key_decrypt_fails
    (P : SecureVault.Bytes) (W1 W2 : String) (salt : SecureVault.Bytes)
    (params : SecureVault.KdfParams) (nonce : SecureVault.Bytes)
    (k1 k2 : SecureVault.MasterSecret)
    (hW : W1 ≠ W2)
    (h1 : SecureVault.derive W1 salt params = .ok k1)
    (h2 : SecureVault.derive W2 salt params = .ok k2) :
    SecureVault.decrypt (SecureVault.encrypt P k1 nonce) k2 =
      .error .authenticationFailed := by
  unfold SecureVault.derive at h1 h2
  split at h1
  · exact absurd h1 (by simp)
  · split at h2
    · exact absurd h2 (by simp)
    · have hk1 : k1 = ⟨W1, salt, params⟩ := by
        cases h1; rfl
      have hk2 : k2 = ⟨W2, salt, params⟩ := by
        cases h2; rfl
      have hne : k1 ≠ k2 := by
        rw [hk1, hk2]
        intro hc
        exact hW (congrArg SecureVault.MasterSecret.password hc)
      simp [SecureVault.decrypt, SecureVault.encrypt, SecureVault.mac, hne]

/-- Witness for C3 at two concrete distinct passwords. -/
theorem SecureVault.wrong_key_decrypt_fails_witness :
    SecureVault.decrypt
      (SecureVault.encrypt [7] ⟨"W1", [0], ⟨100000, none, "PBKDF2"⟩⟩ [5])
      ⟨"W2", [0], ⟨100000, none, "PBKDF2"⟩⟩ = .error .authenticationFailed :=
  SecureVault.wrong_key_decrypt_fails [7] "W1" "W2" [0]
    ⟨100000, none, "PBKDF2"⟩ [5]
    ⟨"W1", [0], ⟨100000, none, "PBKDF2"⟩⟩ ⟨"W2", [0], ⟨100000, none, "PBKDF2"⟩⟩
    (by decide)
    (by simp [SecureVault.derive, SecureVault.iterationSafetyFloor])
    (by simp [SecureVault.derive, SecureVault.iterationSafetyFloor])

/-- C8: KeyDerivation.derive fails with InvalidParams, yielding no key,
whenever the iteration count in params is below the safety floor. -/
theorem SecureVault.derive_low_iterations_invalidParams
    (W : String) (salt : SecureVault.Bytes) (params : SecureVault.KdfParams)
    (h : params.iterations < SecureVault.iterationSafetyFloor) :
    SecureVault.derive W salt params = .error .invalidParams := by
  simp [SecureVault.derive, h]

/-- Witness for C8 at a concrete below-floor iteration count. -/
theorem SecureVault.derive_low_iterations_invalidParams_witness :
    SecureVault.derive "pw" [0] ⟨999, none, "PBKDF2"⟩ =
      .error .invalidParams :=
  SecureVault.derive_low_iterations_invalidParams "pw" [0]
    ⟨999, none, "PBKDF2"⟩ (by decide)

/-- C5: when unlock from the Locked state fails key verification against
the keyCheckEnvelope (wrong password), the KeyManager stays Locked, the
candidate key is not retained, and InvalidCredentials is signalled. -/
theorem SecureVault.unlock_wrong_password_stays_locked
    (km : SecureVault.KeyManager) (meta : SecureVault.VaultMetadata)
    (W1 W2 : String) (kb : SecureVault.MasterSecret)
    (cn : SecureVault.Bytes) (now : Nat)
    (hstate : km.state = .locked)
    (hkb : meta.keyCheckEnvelope =
      SecureVault.encrypt SecureVault.keyCheckConstant kb cn)
    (hW1 : SecureVault.derive W1 meta.salt meta.kdfParams = .ok kb)
    (hW : W1 ≠ W2) :
    (SecureVault.unlock km meta W2 now).1.state = .locked ∧
    (SecureVault.unlock km meta W2 now).1.masterKey = none ∧
    (SecureVault.unlock km meta W2 now).2.2 = .error .invalidCredentials := by
  have hkbval : kb = ⟨W1, meta.salt, meta.kdfParams⟩ := by
    unfold SecureVault.derive at hW1
    split at hW1
    · exact absurd hW1 (by simp)
    · cases hW1; rfl
  have hmain : SecureVault.unlock km meta W2 now =
      ((SecureVault.lock km).1, [], .error .invalidCredentials) := by
    unfold SecureVault.unlock
    cases hdrv : SecureVault.derive W2 meta.salt meta.kdfParams with
    | error e => rfl
    | ok candidate =>
        have hcand : candidate = ⟨W2, meta.salt, meta.kdfParams⟩ := by
          unfold SecureVault.derive at hdrv
          split at hdrv
          · exact absurd hdrv (by simp)
          · cases hdrv; rfl
        have hne : kb ≠ candidate := by
          rw [hkbval, hcand]
          intro hc
          exact hW (congrArg SecureVault.MasterSecret.password hc)
        have hfail : SecureVault.decrypt meta.keyCheckEnvelope candidate =
            .error .authenticationFailed := by
          apply SecureVault.decrypt_ok_other_key_fails _ kb candidate
            SecureVault.keyCheckConstant _ hne
          rw [hkb]
          simp [SecureVault.decrypt, SecureVault.encrypt, SecureVault.mac]
        have hver : SecureVault.verifyKey meta candidate = false := by
          unfold SecureVault.verifyKey
          rw [hfail]
        simp [hver]
  rw [hmain]
  exact ⟨rfl, rfl, rfl⟩

/-- Witness for C5 at a concrete locked manager, metadata and wrong
password. -/
theorem SecureVault.unlock_wrong_password_stays_locked_witness :
    (SecureVault.unlock
      ⟨.locked, none, none, 0, SecureVault.defaultAutoLockTimeoutMs⟩
      ⟨1, [4], ⟨100000, none, "PBKDF2"⟩,
        SecureVault.encrypt SecureVault.keyCheckConstant
          ⟨"right", [4], ⟨100000, none, "PBKDF2"⟩⟩ [2]⟩
      "wrong" 0).1.state = .locked ∧
    (SecureVault.unlock
      ⟨.locked, none, none, 0, SecureVault.defaultAutoLockTimeoutMs⟩
      ⟨1, [4], ⟨100000, none, "PBKDF2"⟩,
        SecureVault.encrypt SecureVault.keyCheckConstant
          ⟨"right", [4], ⟨100000, none, "PBKDF2"⟩⟩ [2]⟩
      "wrong" 0).1.masterKey = none ∧
    (SecureVault.unlock
      ⟨.locked, none, none, 0, SecureVault.defaultAutoLockTimeoutMs⟩
      ⟨1, [4], ⟨100000, none, "PBKDF2"⟩,
        SecureVault.encrypt SecureVault.keyCheckConstant
          ⟨"right", [4], ⟨100000, none, "PBKDF2"⟩⟩ [2]⟩
      "wrong" 0).2.2 = .error .invalidCredentials :=
  SecureVault.unlock_wrong_password_stays_locked _ _ "right" "wrong"
    ⟨"right", [4], ⟨100000, none, "PBKDF2"⟩⟩ [2] 0
    rfl rfl
    (by simp [SecureVault.derive, SecureVault.iterationSafetyFloor])
    (by decide)

/-- C6: lock from the Unlocked state discards the in-memory master key,
cancels the auto-lock timer, transitions to Locked and emits the Locked
event; a second lock leaves the state unchanged (idempotent). -/
theorem SecureVault.lock_discards_key_idempotent
    (km : SecureVault.KeyManager) (h : km.state = .unlocked) :
    (SecureVault.lock km).1.state = .locked ∧
    (SecureVault.lock km).1.masterKey = none ∧
    (SecureVault.lock km).1.autoLockTimer = none ∧
    (SecureVault.lock km).2 = [.lockedEvent] ∧
    (SecureVault.lock (SecureVault.lock km).1).1 = (SecureVault.lock km).1 := by
  refine ⟨rfl, rfl, rfl, rfl, rfl⟩

/-- Witness for C6 at a concrete unlocked manager. -/
theorem SecureVault.lock_discards_key_idempotent_witness :
    (SecureVault.lock
      ⟨.unlocked, some ⟨"w", [0], ⟨100000, none, "PBKDF2"⟩⟩, some 900000, 0,
        SecureVault.defaultAutoLockTimeoutMs⟩).1.masterKey = none ∧
    (SecureVault.lock
      (SecureVault.lock
        ⟨.unlocked, some ⟨"w", [0], ⟨100000, none, "PBKDF2"⟩⟩, some 900000, 0,
          SecureVault.defaultAutoLockTimeoutMs⟩).1).1 =
      (SecureVault.lock
        ⟨.unlocked, some ⟨"w", [0], ⟨100000, none, "PBKDF2"⟩⟩, some 900000, 0,
          SecureVault.defaultAutoLockTimeoutMs⟩).1 :=
  ⟨(SecureVault.lock_discards_key_idempotent _ rfl).2.1,
   (SecureVault.lock_discards_key_idempotent
      ⟨.unlocked, some ⟨"w", [0], ⟨100000, none, "PBKDF2"⟩⟩, some 900000, 0,
        SecureVault.defaultAutoLockTimeoutMs⟩ rfl).2.2.2.2⟩

/-- C7: while Unlocked, auto-lock fires only once the configured inactivity
window has elapsed since the last activity; a vault operation before expiry
succeeds and resets the timer, so an operation performed before expiry
after such a reset still succeeds in the Unlocked state. -/
theorem SecureVault.autoLock_inactivity_window
    (km : SecureVault.KeyManager) (t1 t2 t3 : Nat)
    (h1 : km.state = .unlocked)
    (h2 : t1 < km.lastActivity + km.autoLockTimeoutMs)
    (h3 : t2 < t1 + km.autoLockTimeoutMs) :
    (km.lastActivity + km.autoLockTimeoutMs ≤ t3 →
      (SecureVault.checkAutoLock km t3).1.state = .locked) ∧
    SecureVault.checkAutoLock km t1 = (km, []) ∧
    (SecureVault.vaultOperation km t1).1.lastActivity = t1 ∧
    (SecureVault.vaultOperation km t1).2 = .ok () ∧
    (SecureVault.vaultOperation (SecureVault.vaultOperation km t1).1 t2).2 =
      .ok () := by
  have hchk : SecureVault.checkAutoLock km t1 = (km, []) := by
    unfold SecureVault.checkAutoLock
    rw [if_neg]
    rintro ⟨-, hc⟩
    omega
  have hop : SecureVault.vaultOperation km t1 =
      ({ km with lastActivity := t1 }, .ok ()) := by
    unfold SecureVault.vaultOperation
    rw [hchk]
    simp [h1]
  refine ⟨?_, hchk, ?_, ?_, ?_⟩
  · intro hfire
    unfold SecureVault.checkAutoLock
    rw [if_pos ⟨h1, hfire⟩]
    rfl
  · rw [hop]
  · rw [hop]
  · rw [hop]
    have hchk2 : SecureVault.checkAutoLock { km with lastActivity := t1 } t2 =
        ({ km with lastActivity := t1 }, []) := by
      unfold SecureVault.checkAutoLock
      rw [if_neg]
      rintro ⟨-, hc⟩
      simp at hc
      omega
    unfold SecureVault.vaultOperation
    rw [hchk2]
    simp [h1]

/-- Witness for C7 at a concrete unlocked manager with the default window:
auto-lock fires at expiry, and an operation after a reset succeeds just
before the shifted expiry. -/
theorem SecureVault.autoLock_inactivity_window_witness :
    (SecureVault.checkAutoLock
      ⟨.unlocked, some ⟨"w", [0], ⟨100000, none, "PBKDF2"⟩⟩, some 900000, 0,
        900000⟩ 900000).1.state = .locked ∧
    (SecureVault.vaultOperation
      (SecureVault.vaultOperation
        ⟨.unlocked, some ⟨"w", [0], ⟨100000, none, "PBKDF2"⟩⟩, some 900000, 0,
          900000⟩ 500000).1 1399999).2 = .ok () :=
  ⟨(SecureVault.autoLock_inactivity_window
      ⟨.unlocked, some ⟨"w", [0], ⟨100000, none, "PBKDF2"⟩⟩, some 900000, 0,
        900000⟩ 500000 1399999 900000 rfl (by decide) (by decide)).1
      (by decide),
   (SecureVault.autoLock_inactivity_window
      ⟨.unlocked, some ⟨"w", [0], ⟨100000, none, "PBKDF2"⟩⟩, some 900000, 0,
        900000⟩ 500000 1399999 900000 rfl (by decide) (by decide)).2.2.2.2⟩

namespace SecureVault.SW

/-- A fetch response: ok flag, HTTP status and body, as used by sw.js. -/
structure SWResponse where
  ok : Bool
  status : Nat
  body : String
deriving DecidableEq, Repr

/-- A GET fetch request as seen by the sw.js fetch handler: the URL
pathname and the request destination. -/
structure SWRequest where
  pathname : String
  destination : String
deriving DecidableEq, Repr

/-- A cache.put side effect: target cache name, request key and the stored
response. -/
structure CachePut where
  cacheName : String
  key : String
  response : SWResponse
deriving DecidableEq, Repr

/-- Embedded from sw.js. -/
def STATIC_CACHE : String := "securevault-static-v1.0.0"

/-- Embedded from sw.js. -/
def DYNAMIC_CACHE : String := "securevault-dynamic-v1.0.0"

/-- Embedded from sw.js: URLs that should always try network first, never
caching sensitive data. -/
def NETWORK_ONLY_URLS : List String :=
  ["/api/vault", "/api/passwords", "/api/subscriptions", "/api/auth",
   "/api/session"]

/-- Embedded from sw.js: URLs that try network first but may fall back to
cache. -/
def NETWORK_FIRST_URLS : List String := ["/api/", "/server/"]

/-- Embedded from sw.js: URL fragments of static assets served cache
first. -/
def CACHE_FIRST_URLS : List String :=
  ["/assets/", "/icons/", "/screenshots/", ".css", ".js", ".png", ".jpg",
   ".jpeg", ".gif", ".webp", ".svg", ".woff", ".woff2"]

/-- The JS String startsWith method, computed structurally on the
characters. -/
def strStartsWith (s pat : String) : Bool := pat.data.isPrefixOf s.data

/-- The JS String endsWith method, computed structurally on the
characters. -/
def strEndsWith (s pat : String) : Bool := pat.data.isSuffixOf s.data

/-- Occurrence of a pattern at some position of a character list. -/
def listIncludes (pat : List Char) : List Char → Bool
  | [] => pat.isEmpty
  | c :: cs => pat.isPrefixOf (c :: cs) || listIncludes pat cs

/-- The JS String includes method, computed structurally on the
characters. -/
def strIncludes (s pat : String) : Bool := listIncludes pat.data s.data

/-- Embedded from sw.js shouldUseNetworkOnly: the pathname starts with one
of the NETWORK_ONLY_URLS patterns. -/
def shouldUseNetworkOnly (url : SWRequest) : Bool :=
  NETWORK_ONLY_URLS.any fun pattern => strStartsWith url.pathname pattern

/-- Embedded from sw.js shouldUseNetworkFirst. -/
def shouldUseNetworkFirst (url : SWRequest) : Bool :=
  NETWORK_FIRST_URLS.any fun pattern => strStartsWith url.pathname pattern

/-- Embedded from sw.js shouldUseCacheFirst: the pathname includes or ends
with one of the CACHE_FIRST_URLS patterns. -/
def shouldUseCacheFirst (url : SWRequest) : Bool :=
  CACHE_FIRST_URLS.any fun pattern =>
    strIncludes url.pathname pattern || strEndsWith url.pathname pattern

/-- The synthetic 503 returned by networkOnlyStrategy when the network
fails. -/
def networkUnavailableResponse : SWResponse :=
  ⟨false, 503, "Network unavailable - sensitive data requires connection"⟩

/-- The synthetic 503 returned by networkFirstStrategy when both network
and cache fail. -/
def offlineContentResponse : SWResponse :=
  ⟨false, 503, "Offline - Content not available"⟩

/-- The synthetic 503 returned by cacheFirstStrategy when both cache and
network fail. -/
def resourceUnavailableResponse : SWResponse :=
  ⟨false, 503, "Resource not available offline"⟩

/-- Embedded from sw.js getOfflinePage: the generated offline HTML page. -/
def offlinePageResponse : SWResponse := ⟨true, 200, "offline page"⟩

/-- Embedded from sw.js networkOnlyStrategy: return the live network
response, or a synthetic 503 if the fetch fails; the cache is never read or
written. The network is passed explicitly: some response on fetch success,
none when fetch throws. -/
def networkOnlyStrategy (request : SWRequest) (network : Option SWResponse) :
    SWResponse × List CachePut :=
  match network with
  | some r => (r, [])
  | none => (networkUnavailableResponse, [])

/-- Embedded from sw.js networkFirstStrategy: try the network, caching an
ok response in the dynamic cache unless the URL is network-only; on network
failure fall back to the cache, then to the offline page for document
requests, then to a synthetic 503. The cache is passed as a lookup keyed by
pathname. -/
def networkFirstStrategy (request : SWRequest) (network : Option SWResponse)
    (cache : String → Option SWResponse) : SWResponse × List CachePut :=
  match network with
  | some r =>
    if r.ok && !shouldUseNetworkOnly request then
      (r, [⟨DYNAMIC_CACHE, request.pathname, r⟩])
    else (r, [])
  | none =>
    match cache request.pathname with
    | some c => (c, [])
    | none =>
      if request.destination = "document" then
        (match cache "/offline.html" with
         | some c => c
         | none => offlinePageResponse, [])
      else (offlineContentResponse, [])

/-- Embedded from sw.js cacheFirstStrategy: serve from cache with a
background refresh put, else fetch and cache, else a synthetic 503. -/
def cacheFirstStrategy (request : SWRequest) (network : Option SWResponse)
    (cache : String → Option SWResponse) : SWResponse × List CachePut :=
  match cache request.pathname with
  | some c =>
    (c, match network with
        | some r => if r.ok then [⟨STATIC_CACHE, request.pathname, r⟩] else []
        | none => [])
  | none =>
    match network with
    | some r => (r, if r.ok then [⟨STATIC_CACHE, request.pathname, r⟩] else [])
    | none => (resourceUnavailableResponse, [])

/-- Embedded from sw.js handleFetchRequest: route the request to the
matching strategy — network-only for sensitive URLs, then network-first,
then cache-first, defaulting to network-first. -/
def handleFetchRequest (request : SWRequest) (network : Option SWResponse)
    (cache : String → Option SWResponse) : SWResponse × List CachePut :=
  if shouldUseNetworkOnly request then networkOnlyStrategy request network
  else if shouldUseNetworkFirst request then
    networkFirstStrategy request network cache
  else if shouldUseCacheFirst request then
    cacheFirstStrategy request network cache
  else networkFirstStrategy request network cache

end SecureVault.SW

/-- C9: for every GET request whose pathname starts with one of the
network-only prefixes, handleFetchRequest performs no cache.put and returns
either the live network response or the synthetic 503, never a cached
response. -/
theorem SecureVault.SW.networkOnly_requests_never_cached
    (request : SecureVault.SW.SWRequest)
    (network : Option SecureVault.SW.SWResponse)
    (cache : String → Option SecureVault.SW.SWResponse)
    (h : SecureVault.SW.NETWORK_ONLY_URLS.any
      (fun pattern => SecureVault.SW.strStartsWith request.pathname pattern) =
      true) :
    (SecureVault.SW.handleFetchRequest request network cache).2 = [] ∧
    (SecureVault.SW.handleFetchRequest request network cache).1 =
      (match network with
       | some r => r
       | none => SecureVault.SW.networkUnavailableResponse) ∧
    SecureVault.SW.networkUnavailableResponse.status = 503 := by
  have hno : SecureVault.SW.shouldUseNetworkOnly request = true := h
  unfold SecureVault.SW.handleFetchRequest
  rw [if_pos hno]
  cases network with
  | none => exact ⟨rfl, rfl, rfl⟩
  | some r => exact ⟨rfl, rfl, rfl⟩

/-- Witness for C9 at a concrete vault API request, with the network both
up and down. -/
theorem SecureVault.SW.networkOnly_requests_never_cached_witness :
    (SecureVault.SW.handleFetchRequest ⟨"/api/vault/records/1", "document"⟩
      (some ⟨true, 200, "data"⟩) (fun _ => none)).2 = [] ∧
    (SecureVault.SW.handleFetchRequest ⟨"/api/passwords", ""⟩
      none (fun _ => none)).1 = SecureVault.SW.networkUnavailableResponse :=
  ⟨(SecureVault.SW.networkOnly_requests_never_cached
      ⟨"/api/vault/records/1", "document"⟩ (some ⟨true, 200, "data"⟩)
      (fun _ => none) (by decide)).1,
   (SecureVault.SW.networkOnly_requests_never_cached
      ⟨"/api/passwords", ""⟩ none (fun _ => none) (by decide)).2.1⟩

namespace SecureVault.Analytics

/-- Currency settings of SubscriptionAnalytics (src/unnamed/part_000): base
currency and an exchange-rate table. JS numbers are embedded as exact
rationals. -/
structure CurrencySettings where
  baseCurrency : String
  exchangeRates : List (String × ℚ)

/-- Rate table lookup, none when the currency has no entry. -/
def lookupRate (rates : List (String × ℚ)) (c : String) : Option ℚ :=
  (rates.find? fun p => p.1 == c).map fun p => p.2

/-- Embedded from part_000: the JS fallback `rates[c] || 1`, which yields 1
when the rate is absent (and, being a falsy test, also for a stored rate of
0). -/
def rateOr1 (rates : List (String × ℚ)) (c : String) : ℚ :=
  match lookupRate rates c with
  | some v => if v = 0 then 1 else v
  | none => 1

/-- Embedded from part_000 convertToBaseCurrency: divide by the source
currency rate, multiply by the base currency rate. -/
def convertToBaseCurrency (cs : CurrencySettings) (amount : ℚ)
    (fromCurrency : String) : ℚ :=
  (amount / rateOr1 cs.exchangeRates fromCurrency) *
    rateOr1 cs.exchangeRates cs.baseCurrency

/-- A subscription entry as used by the analytics component. -/
structure SubscriptionEntry where
  id : String
  category : Option String
  cost : ℚ
  currency : String
  billingCycle : String
  isActive : Bool

/-- Embedded from part_000 categoryAnalytics: `sub.category || Other` —
an absent or empty (falsy) category counts as the category `Other`. -/
def effectiveCategory (s : SubscriptionEntry) : String :=
  match s.category with
  | none => "Other"
  | some c => if c = "" then "Other" else c

/-- Embedded from part_000 categoryAnalytics: normalize the cost to monthly
spending by billing cycle — divide by 12 for yearly, multiply by 4.33 for
weekly, multiply by 30 for daily, unchanged otherwise. -/
def normalizeMonthly (s : SubscriptionEntry) : ℚ :=
  if s.billingCycle = "yearly" then s.cost / 12
  else if s.billingCycle = "weekly" then s.cost * (433 / 100)
  else if s.billingCycle = "daily" then s.cost * 30
  else s.cost

/-- The per-category accumulator of categoryAnalytics. -/
structure CategoryData where
  monthly : ℚ
  yearly : ℚ
  count : Nat
  subscriptions : List SubscriptionEntry

/-- The zero entry each category is initialized with. -/
def zeroCategoryData : CategoryData := ⟨0, 0, 0, []⟩

/-- Embedded from part_000 categoryAnalytics: one loop iteration — add the
converted monthly amount to the monthly total, twelve times it to the
yearly total, bump the count and push the subscription, on the entry of the
effective category of the subscription. -/
def accumulate (cs : CurrencySettings) (data : String → CategoryData)
    (sub : SubscriptionEntry) : String → CategoryData := fun c =>
  if c = effectiveCategory sub then
    { monthly := (data c).monthly +
        convertToBaseCurrency cs (normalizeMonthly sub) sub.currency
      yearly := (data c).yearly +
        convertToBaseCurrency cs (normalizeMonthly sub) sub.currency * 12
      count := (data c).count + 1
      subscriptions := (data c).subscriptions ++ [sub] }
  else data c

/-- Embedded from part_000 categoryAnalytics: the loop over the active
subscriptions. The JS object categoryData holds keys exactly for
SUBSCRIPTION_CATEGORIES (each initialized to zero); accumulating into a
missing key is a runtime type error, modelled as none. -/
def categoryLoop (cats : List String) (cs : CurrencySettings) :
    List SubscriptionEntry → (String → CategoryData) →
      Option (String → CategoryData)
  | [], data => some data
  | sub :: rest, data =>
    if effectiveCategory sub ∈ cats then
      categoryLoop cats cs rest (accumulate cs data sub)
    else none

/-- Embedded from part_000 categoryAnalytics: filter to active
subscriptions, then accumulate per category starting from all-zero
entries. cats stands for SUBSCRIPTION_CATEGORIES (imported from
shared/schema, not part of src/). -/
def categoryAnalytics (cats : List String) (cs : CurrencySettings)
    (subscriptions : List SubscriptionEntry) :
    Option (String → CategoryData) :=
  categoryLoop cats cs (subscriptions.filter fun s => s.isActive)
    (fun _ => zeroCategoryData)

/-- The monthly total as the claim words it: the sum, over active
subscriptions of the category, of the cost normalized to monthly and
converted to the base currency. -/
def monthlySpendingSpec (cs : CurrencySettings)
    (subscriptions : List SubscriptionEntry) (cat : String) : ℚ :=
  (((subscriptions.filter fun s => s.isActive).filter
      fun s => effectiveCategory s == cat).map
    fun s => convertToBaseCurrency cs (normalizeMonthly s) s.currency).sum

/-- The loop keeps, for every category, the yearly total at twelve times
the monthly total. -/
theorem categoryLoop_yearly_twelve (cats : List String) (cs : CurrencySettings) :
    ∀ (l : List SubscriptionEntry) (data : String → CategoryData)
      (f : String → CategoryData),
      categoryLoop cats cs l data = some f →
      (∀ c, (data c).yearly = 12 * (data c).monthly) →
      ∀ c, (f c).yearly = 12 * (f c).monthly := by
  intro l
  induction l with
  | nil =>
      intro data f hloop hinv c
      unfold categoryLoop at hloop
      cases hloop
      exact hinv c
  | cons sub rest ih =>
      intro data f hloop hinv c
      unfold categoryLoop at hloop
      split at hloop
      · refine ih (accumulate cs data sub) f hloop ?_ c
        intro c'
        unfold accumulate
        by_cases hc : c' = effectiveCategory sub
        · rw [if_pos hc]
          dsimp only
          rw [hinv]
          ring
        · rw [if_neg hc]
          exact hinv c'
      · exact absurd hloop (by simp)

/-- The loop adds to each category entry exactly the sum of the converted
normalized costs of the processed subscriptions of that category. -/
theorem categoryLoop_monthly_sum (cats : List String) (cs : CurrencySettings) :
    ∀ (l : List SubscriptionEntry) (data : String → CategoryData)
      (f : String → CategoryData),
      categoryLoop cats cs l data = some f →
      ∀ c, (f c).monthly = (data c).monthly +
        ((l.filter fun s => effectiveCategory s == c).map
          fun s => convertToBaseCurrency cs (normalizeMonthly s) s.currency).sum := by
  intro l
  induction l with
  | nil =>
      intro data f hloop c
      unfold categoryLoop at hloop
      cases hloop
      simp
  | cons sub rest ih =>
      intro data f hloop c
      unfold categoryLoop at hloop
      split at hloop
      · have hrec := ih (accumulate cs data sub) f hloop c
        by_cases hc : effectiveCategory sub = c
        · have hfilter :
              ((sub :: rest).filter fun s => effectiveCategory s == c) =
                sub :: (rest.filter fun s => effectiveCategory s == c) := by
            simp [List.filter_cons, hc]
          rw [hfilter]
          simp only [List.map_cons, List.sum_cons]
          rw [hrec]
          unfold accumulate
          rw [if_pos hc.symm]
          dsimp only
          ring
        · have hfilter :
              ((sub :: rest).filter fun s => effectiveCategory s == c) =
                rest.filter fun s => effectiveCategory s == c := by
            simp [List.filter_cons, hc]
          rw [hfilter, hrec]
          unfold accumulate
          rw [if_neg (fun hcc => hc hcc.symm)]
      · exact absurd hloop (by simp)

end SecureVault.Analytics

/-- C10: in SubscriptionAnalytics, each category entry of categoryAnalytics
has as monthly total the sum over the active subscriptions of that category
of the cost normalized to monthly (cost/12 yearly, cost*4.33 weekly,
cost*30 daily, unchanged otherwise) converted to the base currency as
(amount / rate of source) * rate of base with missing rates defaulting
to 1; inactive subscriptions contribute nothing, and the yearly total is
twelve times the monthly total. -/
theorem SecureVault.Analytics.categoryAnalytics_matches_spec
    (cats : List String) (cs : SecureVault.Analytics.CurrencySettings)
    (subscriptions : List SecureVault.Analytics.SubscriptionEntry)
    (f : String → SecureVault.Analytics.CategoryData) (cat : String)
    (h : SecureVault.Analytics.categoryAnalytics cats cs subscriptions =
      some f) :
    (f cat).monthly =
      SecureVault.Analytics.monthlySpendingSpec cs subscriptions cat ∧
    (f cat).yearly = 12 * (f cat).monthly := by
  unfold SecureVault.Analytics.categoryAnalytics at h
  constructor
  · have hsum := SecureVault.Analytics.categoryLoop_monthly_sum cats cs
      (subscriptions.filter fun s => s.isActive)
      (fun _ => SecureVault.Analytics.zeroCategoryData) f h cat
    rw [hsum]
    unfold SecureVault.Analytics.monthlySpendingSpec
    simp [SecureVault.Analytics.zeroCategoryData]
  · exact SecureVault.Analytics.categoryLoop_yearly_twelve cats cs
      (subscriptions.filter fun s => s.isActive)
      (fun _ => SecureVault.Analytics.zeroCategoryData) f h
      (fun c => by simp [SecureVault.Analytics.zeroCategoryData]) cat

/-- Witness for C10: a concrete run with one active yearly EUR subscription
and one inactive subscription, evaluated in the category Other. -/
theorem SecureVault.Analytics.categoryAnalytics_matches_spec_witness :
    ((SecureVault.Analytics.accumulate ⟨"USD", [("USD", 1), ("EUR", 17/20)]⟩
        (fun _ => SecureVault.Analytics.zeroCategoryData)
        ⟨"s1", none, 12, "EUR", "yearly", true⟩) "Other").monthly =
      SecureVault.Analytics.monthlySpendingSpec
        ⟨"USD", [("USD", 1), ("EUR", 17/20)]⟩
        [⟨"s1", none, 12, "EUR", "yearly", true⟩,
         ⟨"s2", some "Media", 99, "USD", "monthly", false⟩] "Other" ∧
    ((SecureVault.Analytics.accumulate ⟨"USD", [("USD", 1), ("EUR", 17/20)]⟩
        (fun _ => SecureVault.Analytics.zeroCategoryData)
        ⟨"s1", none, 12, "EUR", "yearly", true⟩) "Other").yearly =
      12 * ((SecureVault.Analytics.accumulate
        ⟨"USD", [("USD", 1), ("EUR", 17/20)]⟩
        (fun _ => SecureVault.Analytics.zeroCategoryData)
        ⟨"s1", none, 12, "EUR", "yearly", true⟩) "Other").monthly :=
  SecureVault.Analytics.categoryAnalytics_matches_spec ["Media", "Other"]
    ⟨"USD", [("USD", 1), ("EUR", 17/20)]⟩
    [⟨"s1", none, 12, "EUR", "yearly", true⟩,
     ⟨"s2", some "Media", 99, "USD", "monthly", false⟩]
    _ "Other" rfl
